import Mathlib

/-!
# Verification of the osc package (message codec, pattern matcher, dispatcher)

Shallow embedding of the Go package `osc`.  Bytes are modelled as `Nat`
(values below 256 in practice), byte slices as `List Nat`, and the
`bytes.Buffer` argument buffer as a `List Nat` holding the unread bytes
(reads consume from the front, writes append at the back).  Machine `int32`
values are modelled as `Int` with explicit reduction modulo 2^32 at the
byte boundary.  A Go runtime panic (out-of-range index, out-of-range slice)
is a distinct `panic` outcome; fallible operations return an error value.

`float32` payloads are modelled by their big-endian 4-byte bit pattern
(a `Nat`); `binary.Read`/`binary.Write` only move those bytes, so IEEE-754
semantics never enters the embedding.
-/

namespace Osc

/-- Modelled from the spec: the type-tag character table (spec section 6).
The Go constants `typetagPrefix`, `typetagInt`, `typetagFloat`,
`typetagString`, `typetagBlob`, `typetagTrue`, `typetagFalse` are referenced
by `message.go` but declared elsewhere in the repository; their values are
the ASCII codes of the tag characters listed in the spec.
(The Go name `typetagPrefix` is rendered here as `typetagComma`.) -/
def typetagComma : Nat := 44

/-- ASCII code of the int32 tag character `i`. -/
def typetagInt : Nat := 105

/-- ASCII code of the float32 tag character `f`. -/
def typetagFloat : Nat := 102

/-- ASCII code of the string tag character `s`. -/
def typetagString : Nat := 115

/-- ASCII code of the blob tag character `b`. -/
def typetagBlob : Nat := 98

/-- ASCII code of the true tag character `T`. -/
def typetagTrue : Nat := 84

/-- ASCII code of the false tag character `F`. -/
def typetagFalse : Nat := 70

/-- The `Message` struct of `message.go` (`senderAddress`, an opaque network
address irrelevant to every claim, is omitted). `argbuf` holds the unread
bytes of the `bytes.Buffer`. -/
structure Message where
  address : List Nat
  typetag : List Nat
  argbuf : List Nat
  ttReadIndex : Nat
deriving DecidableEq, Repr

/-- The error values of the package (`ErrIndexOutOfBounds`,
`ErrInvalidTypeTag`, `ErrNilWriter`, `ErrParse` from `message.go`), the
dynamic errors produced with `fmt.Errorf` (`typeMismatch` for
"Unexpected type %c", `bundleFailed` for the bundle-invocation wrapper),
the `io` errors surfaced by `binary.Read` (`eof` covering `io.EOF` and
`io.ErrUnexpectedEOF`) and the regexp-compilation error of `getRegEx`
(`invalidPattern`). -/
inductive OscErr where
  | indexOutOfBounds : OscErr
  | invalidTypeTag : OscErr
  | nilWriter : OscErr
  | parseErr : OscErr
  | typeMismatch : Nat → OscErr
  | eof : OscErr
  | invalidPattern : OscErr
  | bundleFailed : OscErr → OscErr
deriving DecidableEq, Repr

/-- Outcome of a typed read on a `Message`: a Go runtime panic, an error
together with the message state left behind, or a value together with the
new message state. -/
inductive ReadResult (α : Type) where
  | panic : ReadResult α
  | err : OscErr → Message → ReadResult α
  | ok : α → Message → ReadResult α
deriving DecidableEq, Repr

/-- Outcome of parsing a message from raw bytes. -/
inductive ParseResult where
  | panic : ParseResult
  | error : OscErr → ParseResult
  | ok : Message → ParseResult
deriving DecidableEq, Repr

/-- Big-endian word from four bytes (`byteOrder = binary.BigEndian`;
the spec fixes all integers as big-endian). -/
def word4 (a b c d : Nat) : Nat :=
  a % 256 * 16777216 + b % 256 * 65536 + c % 256 * 256 + d % 256

/-- Two's-complement reading of a 32-bit word as a signed `int32`. -/
def toInt32 (n : Nat) : Int :=
  if n % 4294967296 < 2147483648 then Int.ofNat (n % 4294967296)
  else Int.ofNat (n % 4294967296) - 4294967296

/-- The four big-endian bytes of an `int32` (`binary.Write` of an `int32`). -/
def int32ToBytes (v : Int) : List Nat :=
  let n := (v % 4294967296).toNat
  [n / 16777216 % 256, n / 65536 % 256, n / 256 % 256, n % 256]

/-- `binary.Read(msg.argbuf, byteOrder, &val)` for a 4-byte value: consumes
four bytes and yields the word, or fails (draining the buffer) when fewer
than four bytes remain (`io.EOF` / `io.ErrUnexpectedEOF`). -/
def binReadWord : List Nat → Option (Nat × List Nat)
  | a :: b :: c :: d :: rest => some (word4 a b c d, rest)
  | _ => none

/-- `NewMessage` from `message.go`: leading `,` typetag, read cursor 1. -/
def NewMessage (addr : List Nat) : Message :=
  { address := addr, typetag := [typetagComma], argbuf := [], ttReadIndex := 1 }

/-- `Message.ReadInt32` from `message.go`.  The tag fetch
`msg.typetag[msg.ttReadIndex]` has no bounds check: an out-of-range cursor
is a runtime panic. -/
def readInt32 (m : Message) : ReadResult Int :=
  match m.typetag[m.ttReadIndex]? with
  | none => .panic
  | some tt =>
    if tt ≠ typetagInt then .err (.typeMismatch tt) m
    else
      match binReadWord m.argbuf with
      | none => .err .eof { m with argbuf := [] }
      | some (v, rest) =>
          .ok (toInt32 v) { m with argbuf := rest, ttReadIndex := m.ttReadIndex + 1 }

/-- `Message.ReadFloat32` from `message.go`; the float is represented by its
big-endian bit pattern. -/
def readFloat32 (m : Message) : ReadResult Nat :=
  match m.typetag[m.ttReadIndex]? with
  | none => .panic
  | some tt =>
    if tt ≠ typetagFloat then .err (.typeMismatch tt) m
    else
      match binReadWord m.argbuf with
      | none => .err .eof { m with argbuf := [] }
      | some (v, rest) =>
          .ok v { m with argbuf := rest, ttReadIndex := m.ttReadIndex + 1 }

/-- `Message.ReadBool` from `message.go`: the value lives in the tag only. -/
def readBool (m : Message) : ReadResult Bool :=
  match m.typetag[m.ttReadIndex]? with
  | none => .panic
  | some tt =>
    if tt ≠ typetagTrue ∧ tt ≠ typetagFalse then .err (.typeMismatch tt) m
    else .ok (decide (tt = typetagTrue)) { m with ttReadIndex := m.ttReadIndex + 1 }

/-- The scan loop of `Message.ReadString`: `i` is the iteration counter,
compared on every round against the *current* remaining length of the
buffer (`msg.argbuf.Len()` shrinks as bytes are read).  On a null byte the
padding loop `for j := i; j%4 != 0; j++` consumes `(4 - i % 4) % 4` further
bytes (ignoring EOF).  Returns the collected value and the remaining
buffer. -/
def readStringLoop : List Nat → Nat → List Nat → List Nat × List Nat
  | [], _, acc => (acc, [])
  | c :: rest, i, acc =>
    if i < rest.length + 1 then
      if c = 0 then (acc, rest.drop ((4 - i % 4) % 4))
      else readStringLoop rest (i + 1) (acc ++ [c])
    else (acc, c :: rest)

/-- `Message.ReadString` from `message.go`. -/
def readString (m : Message) : ReadResult (List Nat) :=
  match m.typetag[m.ttReadIndex]? with
  | none => .panic
  | some tt =>
    if tt ≠ typetagString then .err (.typeMismatch tt) m
    else
      match readStringLoop m.argbuf 0 [] with
      | (val, rest) =>
          .ok val { m with argbuf := rest, ttReadIndex := m.ttReadIndex + 1 }

/-- `Message.ReadBlob` from `message.go`: reads a 4-byte length `bl`, then
`make([]byte, bl)` (a Go panic when `bl` is negative) and
`msg.argbuf.Read(blob)`, which errors only on an empty buffer with a
non-empty destination and otherwise fills as many bytes as are available
(the rest of the destination stays zero). -/
def readBlob (m : Message) : ReadResult (List Nat) :=
  match m.typetag[m.ttReadIndex]? with
  | none => .panic
  | some tt =>
    if tt ≠ typetagBlob then .err (.typeMismatch tt) m
    else
      match binReadWord m.argbuf with
      | none => .err .eof { m with argbuf := [] }
      | some (w, rest) =>
          let bl := toInt32 w
          if bl < 0 then .panic
          else if rest.length = 0 ∧ 0 < bl then .err .eof { m with argbuf := rest }
          else
            .ok (rest.take bl.toNat ++ List.replicate (bl.toNat - rest.length) 0)
              { m with argbuf := rest.drop bl.toNat, ttReadIndex := m.ttReadIndex + 1 }

/-- `Message.WriteInt32` from `message.go`. -/
def writeInt32 (m : Message) (v : Int) : Message :=
  { m with typetag := m.typetag ++ [typetagInt], argbuf := m.argbuf ++ int32ToBytes v }

/-- `Message.WriteFloat32` from `message.go`; `bits` is the big-endian bit
pattern of the float. -/
def writeFloat32 (m : Message) (bits : Nat) : Message :=
  { m with typetag := m.typetag ++ [typetagFloat],
           argbuf := m.argbuf ++ int32ToBytes (Int.ofNat bits) }

/-- `Message.WriteBool` from `message.go`. -/
def writeBool (m : Message) (val : Bool) : Message :=
  { m with typetag := m.typetag ++ [if val then typetagTrue else typetagFalse] }

/-- `Message.WriteString` from `message.go`: the raw bytes of `val`, then
the padding loop `for j := i; j%4 != 0; j++` emits `(4 - len % 4) % 4`
null bytes - zero of them when the length is already a multiple of 4. -/
def writeString (m : Message) (val : List Nat) : Message :=
  { m with typetag := m.typetag ++ [typetagString],
           argbuf := m.argbuf ++ val ++ List.replicate ((4 - val.length % 4) % 4) 0 }

/-- `Message.WriteBlob` from `message.go`: an empty blob returns at once,
appending neither a tag nor a length prefix. -/
def writeBlob (m : Message) (blob : List Nat) : Message :=
  if blob.length = 0 then m
  else
    { m with typetag := m.typetag ++ [typetagBlob],
             argbuf := m.argbuf ++ int32ToBytes (Int.ofNat blob.length) ++ blob
                       ++ List.replicate ((4 - blob.length % 4) % 4) 0 }

/-- `Message.bytes` from `message.go`: address, then typetag, then one
padding run `for i := bytesWritten; i%4 != 0; i++` over their *combined*
length, then the argument buffer. -/
def Message.bytes (m : Message) : List Nat :=
  let hdr := m.address ++ m.typetag
  hdr ++ List.replicate ((4 - hdr.length % 4) % 4) 0 ++ m.argbuf

/-- `Message.parseArguments` from `message.go`: reject empty data or a
first byte other than `,`; scan for the first null byte (the typetag stays
nil when there is none); advance the index to the next multiple of 4
(`for i%4 != 0 { i++ }`); the Go slice `data[i:]` panics when `i` exceeds
the length. -/
def parseArguments (address : List Nat) (data : List Nat) : ParseResult :=
  if data.length = 0 ∨ data.head? ≠ some typetagComma then .error .invalidTypeTag
  else
    let i0 := data.findIdx (fun x => x == 0)
    let tt := if i0 < data.length then data.take i0 else []
    let i := if i0 % 4 = 0 then i0 else i0 + (4 - i0 % 4)
    if i ≤ data.length then
      .ok { address := address, typetag := tt, argbuf := data.drop i, ttReadIndex := 1 }
    else .panic

/-- `parseMessage` from `message.go`: scan for the first `,`; everything
before it is the address (nil when there is no `,`); hand the rest to
`parseArguments`. -/
def parseMessage (data : List Nat) : ParseResult :=
  let i := data.findIdx (fun b => b == typetagComma)
  let address := if i < data.length then data.take i else []
  parseArguments address (data.drop i)

/-! ## Pattern matcher

`Message.Match` in `message.go` calls `getRegEx`, which is referenced but
declared elsewhere in the repository.  Modelled from the spec: section 4.4
gives the pattern grammar compiled by `getRegEx` - within a `/`-separated
address, `?` matches one non-`/` character, `*` matches zero or more
non-`/` characters, `[set]` is a character class with ranges `a-z`,
negation by a leading `!` or `^` and a literal `]` first, `{a,b,c}` is an
alternation of literal substrings, and anchors are implicit at both ends.
The compiled matcher is represented as a token list; the match functions
carry a fuel argument (every step consumes pattern or input, so the initial
fuel `pattern length + input length + 1` is never exhausted). -/

/-- One compiled pattern element. -/
inductive Tok where
  | lit : Char → Tok
  | any : Tok
  | star : Tok
  | cls : Bool → List (Char × Char) → Tok
  | alt : List (List Char) → Tok
deriving DecidableEq, Repr

/-- Modelled from the spec: parse the items of a character class up to the
closing `]`; `a-z` is a range, any other character a singleton range. -/
def parseClassItems : List Char → Option (List (Char × Char) × List Char)
  | [] => none
  | ']' :: rest => some ([], rest)
  | a :: '-' :: b :: rest =>
    if b = ']' then some ([(a, a), ('-', '-')], rest)
    else (parseClassItems rest).map (fun p => ((a, b) :: p.1, p.2))
  | a :: rest => (parseClassItems rest).map (fun p => ((a, a) :: p.1, p.2))

/-- Modelled from the spec: a character class body - optional negation by
`!` or `^`, then items, where a literal `]` must come first. -/
def parseClass (l : List Char) : Option (Bool × List (Char × Char) × List Char) :=
  match l with
  | '!' :: rest =>
    match rest with
    | ']' :: r => (parseClassItems r).map (fun p => (true, (']', ']') :: p.1, p.2))
    | _ => (parseClassItems rest).map (fun p => (true, p.1, p.2))
  | '^' :: rest =>
    match rest with
    | ']' :: r => (parseClassItems r).map (fun p => (true, (']', ']') :: p.1, p.2))
    | _ => (parseClassItems rest).map (fun p => (true, p.1, p.2))
  | ']' :: r => (parseClassItems r).map (fun p => (false, (']', ']') :: p.1, p.2))
  | _ => (parseClassItems l).map (fun p => (false, p.1, p.2))

/-- Modelled from the spec: the alternatives of `{a,b,c}` up to the closing
`}`; each alternative is a literal substring (no nesting). -/
def parseAlts : List Char → Option (List (List Char) × List Char)
  | [] => none
  | '}' :: rest => some ([[]], rest)
  | ',' :: rest => (parseAlts rest).map (fun p => ([] :: p.1, p.2))
  | c :: rest =>
    (parseAlts rest).map
      (fun p => ((match p.1 with | [] => [[c]] | a :: tl => (c :: a) :: tl), p.2))

/-- Modelled from the spec: compile a pattern into tokens; `none` is a
compilation failure (unbalanced class or alternation). -/
def compileTokens : Nat → List Char → Option (List Tok)
  | 0, _ => none
  | _ + 1, [] => some []
  | fuel + 1, c :: rest =>
    if c = '?' then (compileTokens fuel rest).map (Tok.any :: ·)
    else if c = '*' then (compileTokens fuel rest).map (Tok.star :: ·)
    else if c = '[' then
      match parseClass rest with
      | none => none
      | some (neg, items, rest2) => (compileTokens fuel rest2).map (Tok.cls neg items :: ·)
    else if c = '{' then
      match parseAlts rest with
      | none => none
      | some (alts, rest2) => (compileTokens fuel rest2).map (Tok.alt alts :: ·)
    else (compileTokens fuel rest).map (Tok.lit c :: ·)

/-- `getRegEx` (referenced by `message.go`, modelled from the spec):
compile an address pattern. -/
def getRegEx (pattern : List Char) : Option (List Tok) :=
  compileTokens (pattern.length + 1) pattern

/-- Does `c` fall in the class given by its negation flag and ranges? -/
def clsMatch (neg : Bool) (items : List (Char × Char)) (c : Char) : Bool :=
  let inSet := items.any (fun p => decide (p.1 ≤ c) && decide (c ≤ p.2))
  if neg then !inSet else inSet

/-- Modelled from the spec: run a compiled pattern over an address, both
ends anchored. -/
def tokMatchF : Nat → List Tok → List Char → Bool
  | 0, _, _ => false
  | _ + 1, [], cs => cs.isEmpty
  | fuel + 1, Tok.lit a :: ts, cs =>
    match cs with
    | [] => false
    | c :: cs2 => a == c && tokMatchF fuel ts cs2
  | fuel + 1, Tok.any :: ts, cs =>
    match cs with
    | [] => false
    | c :: cs2 => !(c == '/') && tokMatchF fuel ts cs2
  | fuel + 1, Tok.star :: ts, cs =>
    tokMatchF fuel ts cs ||
      (match cs with
       | [] => false
       | c :: cs2 => !(c == '/') && tokMatchF fuel (Tok.star :: ts) cs2)
  | fuel + 1, Tok.cls neg items :: ts, cs =>
    match cs with
    | [] => false
    | c :: cs2 => clsMatch neg items c && tokMatchF fuel ts cs2
  | fuel + 1, Tok.alt alts :: ts, cs =>
    alts.any (fun a => a.isPrefixOf cs && tokMatchF fuel ts (cs.drop a.length))

/-- Run a compiled pattern with adequate fuel. -/
def tokMatch (ts : List Tok) (cs : List Char) : Bool :=
  tokMatchF (ts.length + cs.length + 1) ts cs

/-- `Message.Match` from `message.go`: compile `getRegEx(string(msg.address))`
- the *message's own address* is the pattern - and test the given
(registered) address string against it. -/
def Message.Match (m : Message) (address : String) : Except OscErr Bool :=
  match getRegEx (m.address.map Char.ofNat) with
  | none => .error .invalidPattern
  | some toks => .ok (tokMatch toks address.data)

/-- The matching direction in the words of the spec (section 4.4, "the
registered string is treated as a pattern; the incoming address must
match"): compile the *registered* string and test the incoming message's
address against it.  Stated only for comparison with `Message.Match`. -/
def matchSpecClaim (registered : String) (incoming : String) : Except OscErr Bool :=
  match getRegEx registered.data with
  | none => .error .invalidPattern
  | some toks => .ok (tokMatch toks incoming.data)

/-! ## Dispatcher

`PatternMatching` in the source is `map[string]MessageHandler`; it is
modelled as an association list fixing one iteration order (Go map
iteration order is unspecified).  A `MessageHandler` is modelled by a name
(to record which handlers were invoked) and the error its `Handle` method
returns.  `Bundle` and `Packet` are referenced by the source but declared
elsewhere in the repository; modelled from the spec (section 3): a bundle
has a time-tag and an ordered packet sequence, and a packet is a message or
a bundle.  Each dispatch function returns the names of the handlers it
invoked, in order, together with its result. -/

/-- A `MessageHandler`: its name and the error `Handle` returns. -/
structure Handler where
  name : String
  result : Option OscErr
deriving DecidableEq, Repr

/-- The `PatternMatching` dispatcher table, in registration order. -/
def PatternMatching : Type := List (String × Handler)

/-- Modelled from the spec: a `Packet` is a message or a bundle of a
time-tag and ordered packets. -/
inductive Packet where
  | msg : Message → Packet
  | bundle : Nat → List Packet → Packet

/-- `PatternMatching.Invoke` from the source: walk the table; on the first
entry whose `msg.Match` succeeds, return that handler's result - later
matching entries are never reached.  A `Match` error is returned at once. -/
def PatternMatching.Invoke : PatternMatching → Message → List String × Except OscErr Unit
  | [], _ => ([], .ok ())
  | (address, handler) :: rest, msg =>
    match msg.Match address with
    | .error e => ([], .error e)
    | .ok true =>
      ([handler.name], match handler.result with | some e => .error e | none => .ok ())
    | .ok false => PatternMatching.Invoke rest msg

/-- `PatternMatching.invoke` from the source (lower-case): dispatch on the
packet kind; a nested bundle goes through the `immediately` body, which
processes only the head packet of the bundle and returns. -/
def PatternMatching.invoke (h : PatternMatching) : Packet → List String × Except OscErr Unit
  | .msg m => PatternMatching.Invoke h m
  | .bundle _ [] => ([], .ok ())
  | .bundle _ (p :: _) =>
    match PatternMatching.invoke h p with
    | (tr, .error e) => (tr, .error (.bundleFailed e))
    | (tr, .ok _) => (tr, .ok ())

/-- `PatternMatching.immediately` from the source: the loop body ends in
`return nil`, so only the first packet of the bundle is ever invoked (an
error from it is wrapped; otherwise nil is returned at once). -/
def PatternMatching.immediately (h : PatternMatching) (packets : List Packet) :
    List String × Except OscErr Unit :=
  match packets with
  | [] => ([], .ok ())
  | p :: _ =>
    match PatternMatching.invoke h p with
    | (tr, .error e) => (tr, .error (.bundleFailed e))
    | (tr, .ok _) => (tr, .ok ())

/-! ## Concrete instances used by the theorems -/

/-- The bytes of the address string of the spec's end-to-end scenario
(the 13 ASCII codes of `/address/test`). -/
def addrTest : List Nat := [47, 97, 100, 100, 114, 101, 115, 115, 47, 116, 101, 115, 116]

/-- The scenario message: address `/address/test`, one int32 argument 1122. -/
def msgAddressTest : Message := writeInt32 (NewMessage addrTest) 1122

/-- What `parseMessage` makes of the scenario message's encoding: the
argument buffer has lost a byte to the misplaced alignment. -/
def msgAddressTestDecoded : Message :=
  { address := addrTest, typetag := [44, 105], argbuf := [0, 4, 98], ttReadIndex := 1 }

/-- A message whose single argument has the unknown tag `x` (ASCII 120). -/
def msgTagX : Message :=
  { address := [47, 97], typetag := [44, 120], argbuf := [1, 2, 3, 4], ttReadIndex := 1 }

/-- A message addressed `/a`. -/
def msgA : Message := NewMessage [47, 97]

/-- A message addressed `/b`. -/
def msgB : Message := NewMessage [47, 98]

/-- A message whose address `/a/?` contains a wildcard. -/
def msgQ : Message := NewMessage [47, 97, 47, 63]

/-- A message addressed `/a/b` (no metacharacters). -/
def msgLit : Message := NewMessage [47, 97, 47, 98]

/-- A two-entry dispatcher table for the bundle scenario. -/
def tableAB : PatternMatching := [("/a", ⟨"hA", none⟩), ("/b", ⟨"hB", none⟩)]

/-- A two-entry dispatcher table whose patterns both match `msgQ`. -/
def tableBC : PatternMatching := [("/a/b", ⟨"h1", none⟩), ("/a/c", ⟨"h2", none⟩)]

/-- The registered address of the incoming message, as a string. -/
def addrString (m : Message) : String := String.mk (m.address.map Char.ofNat)

/-! ## Theorems for the claims -/

/-- Claim C1 (code bug): the round-trip law fails on the very message of
the spec's scenario 1.  `Message.bytes` pads the address and typetag
jointly, while `parseArguments` aligns relative to the position of the
`,`; for the 13-byte address `/address/test` the decoded argument buffer
is `[0, 4, 98]` - one byte short - so the decoded message differs from the
original and its `ReadInt32` fails with an EOF error instead of returning
1122 (which the original message's `ReadInt32` does return). -/
theorem roundtrip_broken_at_address_test :
    parseMessage (Message.bytes msgAddressTest) = ParseResult.ok msgAddressTestDecoded ∧
    msgAddressTestDecoded ≠ msgAddressTest ∧
    readInt32 msgAddressTest =
      ReadResult.ok 1122 { msgAddressTest with argbuf := [], ttReadIndex := 2 } ∧
    readInt32 msgAddressTestDecoded =
      ReadResult.err OscErr.eof { msgAddressTestDecoded with argbuf := [] } := by
  refine ⟨?_, ?_, ?_, ?_⟩ <;> decide

/-- Claim C2 (code bug): `PatternMatching.immediately` returns inside the
first iteration of its packet loop, so dispatching a two-packet bundle
whose time-tag has arrived invokes only the first packet's handler (`hA`),
although the second packet would have been dispatched to `hB` had the loop
continued. -/
theorem immediately_first_packet_only :
    PatternMatching.immediately tableAB [Packet.msg msgA, Packet.msg msgB] =
      (["hA"], Except.ok ()) ∧
    PatternMatching.Invoke tableAB msgB = (["hB"], Except.ok ()) := by
  constructor <;> rfl

/-- Claim C3 (code bug): `PatternMatching.Invoke` returns the first
matching handler's result, so although both registered patterns of
`tableBC` match the message, only the first handler is invoked. -/
theorem invoke_stops_at_first_match :
    PatternMatching.Invoke tableBC msgQ = (["h1"], Except.ok ()) ∧
    Message.Match msgQ "/a/b" = Except.ok true ∧
    Message.Match msgQ "/a/c" = Except.ok true := by
  refine ⟨?_, ?_, ?_⟩ <;> rfl

/-- Claim C4 (code bug): the encoded form of the scenario message is 20
bytes - the 13 address bytes followed immediately by `,i` (byte 13 is 44,
the comma, not a null terminator), one joint padding null, and the 4
argument bytes - not a 16-byte padded address followed by a 4-byte padded
typetag. -/
theorem bytes_pads_address_and_typetag_jointly :
    Message.bytes msgAddressTest =
      [47, 97, 100, 100, 114, 101, 115, 115, 47, 116, 101, 115, 116,
       44, 105, 0, 0, 0, 4, 98] ∧
    (Message.bytes msgAddressTest).length = 20 := by
  refine ⟨?_, ?_⟩ <;> decide

/-- Claim C5 (code bug): `WriteString` of the 4-byte string `abcd` appends
exactly the four raw bytes and no terminating null at all - the padding
loop runs zero times when the length is already a multiple of 4. -/
theorem writeString_aligned_appends_no_null :
    (writeString msgA [97, 98, 99, 100]).argbuf = [97, 98, 99, 100] ∧
    (writeString msgA [97, 98, 99, 100]).typetag = [44, 115] := by
  refine ⟨?_, ?_⟩ <;> rfl

/-- Claim C6 (code bug): `WriteBlob` of an empty blob returns without
touching the message: no `b` tag and no 4-byte zero length prefix are
appended. -/
theorem writeBlob_empty_is_skipped : ∀ m : Message, writeBlob m [] = m :=
  fun _ => rfl

/-- Claim C7 (confirmed): a typed read that sees a mismatched tag at the
cursor fails with the type-mismatch error and returns the message
unchanged - same cursor, same argument buffer. -/
theorem typed_read_mismatch_no_advance (m : Message) (tt : Nat)
    (h : m.typetag[m.ttReadIndex]? = some tt) :
    (tt ≠ typetagInt → readInt32 m = ReadResult.err (OscErr.typeMismatch tt) m) ∧
    (tt ≠ typetagFloat → readFloat32 m = ReadResult.err (OscErr.typeMismatch tt) m) ∧
    (tt ≠ typetagTrue ∧ tt ≠ typetagFalse →
      readBool m = ReadResult.err (OscErr.typeMismatch tt) m) ∧
    (tt ≠ typetagString → readString m = ReadResult.err (OscErr.typeMismatch tt) m) ∧
    (tt ≠ typetagBlob → readBlob m = ReadResult.err (OscErr.typeMismatch tt) m) := by
  refine ⟨fun hne => ?_, fun hne => ?_, fun hne => ?_, fun hne => ?_, fun hne => ?_⟩ <;>
    simp [readInt32, readFloat32, readBool, readString, readBlob, h, hne]

/-- Witness for C7 at the concrete message `msgTagX` (tag `x`). -/
theorem typed_read_mismatch_no_advance_witness :
    readInt32 msgTagX = ReadResult.err (OscErr.typeMismatch 120) msgTagX ∧
    readFloat32 msgTagX = ReadResult.err (OscErr.typeMismatch 120) msgTagX ∧
    readBool msgTagX = ReadResult.err (OscErr.typeMismatch 120) msgTagX ∧
    readString msgTagX = ReadResult.err (OscErr.typeMismatch 120) msgTagX ∧
    readBlob msgTagX = ReadResult.err (OscErr.typeMismatch 120) msgTagX := by
  have h := typed_read_mismatch_no_advance msgTagX 120 (by decide)
  exact ⟨h.1 (by decide), h.2.1 (by decide), h.2.2.1 (by decide),
    h.2.2.2.1 (by decide), h.2.2.2.2 (by decide)⟩

/-- Claim C8, counterexample: the claim predicts that matching message
`msgQ` (address `/a/?`) against the registered string `/a/b` behaves like
compiling `/a/b` and testing `/a/?` against it, which is false; the code
compiles the message's own address `/a/?` and answers true. -/
theorem match_direction_counterexample :
    Message.Match msgQ "/a/b" = Except.ok true ∧
    matchSpecClaim "/a/b" "/a/?" = Except.ok false := by
  constructor <;> rfl

/-- Claim C8, amended: in pattern-match mode the *incoming message's
address* is compiled as the pattern and the registered string is the
concrete side tested against it - `Match` is exactly the spec's matcher
with the two roles swapped, so a wildcard is honoured in the message
address and ignored in the registered string. -/
theorem match_direction_amended :
    (∀ (m : Message) (s : String), Message.Match m s = matchSpecClaim (addrString m) s) ∧
    Message.Match msgQ "/a/b" = Except.ok true ∧
    Message.Match msgLit "/a/?" = Except.ok false := by
  refine ⟨fun m s => rfl, ?_, ?_⟩ <;> rfl

/-- Claim C9 (confirmed): parsing data that holds no `,` byte at all ends
in `parseArguments` seeing empty data and returns the invalid-type-tag
error with no message; and `parseArguments` rejects empty data or a first
byte other than `,` the same way. -/
theorem parse_missing_comma_invalid_typetag (data : List Nat)
    (h : typetagComma ∉ data) :
    parseMessage data = ParseResult.error OscErr.invalidTypeTag ∧
    ∀ (addr d : List Nat), d = [] ∨ d.head? ≠ some typetagComma →
      parseArguments addr d = ParseResult.error OscErr.invalidTypeTag := by
  constructor
  · have hf : data.findIdx (fun b => b == typetagComma) = data.length :=
      List.findIdx_eq_length_of_false (fun x hx => by
        simp only [beq_eq_false_iff_ne, ne_eq]
        intro he
        exact h (he ▸ hx))
    simp [parseMessage, hf, List.drop_length, parseArguments]
  · intro addr d hd
    rcases hd with rfl | hd
    · rfl
    · cases d with
      | nil => rfl
      | cons b rest =>
        unfold parseArguments
        rw [if_pos (Or.inr hd)]

/-- Witness for C9 at the concrete comma-free input `/abc`. -/
theorem parse_missing_comma_invalid_typetag_witness :
    parseMessage [47, 97, 98, 99] = ParseResult.error OscErr.invalidTypeTag :=
  (parse_missing_comma_invalid_typetag [47, 97, 98, 99] (by decide)).1

/-- Claim C10 (confirmed): once the cursor equals the typetag length every
typed read is a runtime panic (the unchecked index), not a returned error;
and no typed read and no parse ever returns the declared
index-out-of-bounds error value. -/
theorem consumed_message_read_panics (m : Message)
    (h : m.ttReadIndex = m.typetag.length) :
    (readInt32 m = ReadResult.panic ∧ readFloat32 m = ReadResult.panic ∧
      readBool m = ReadResult.panic ∧ readString m = ReadResult.panic ∧
      readBlob m = ReadResult.panic) ∧
    (∀ (x : Message) (e : OscErr) (s : Message),
        (readInt32 x = ReadResult.err e s ∨ readFloat32 x = ReadResult.err e s ∨
          readBool x = ReadResult.err e s ∨ readString x = ReadResult.err e s ∨
          readBlob x = ReadResult.err e s) → e ≠ OscErr.indexOutOfBounds) ∧
    (∀ (d addr : List Nat),
        parseMessage d ≠ ParseResult.error OscErr.indexOutOfBounds ∧
        parseArguments addr d ≠ ParseResult.error OscErr.indexOutOfBounds) := by
  have hn : m.typetag[m.ttReadIndex]? = none := by
    rw [h]
    exact List.getElem?_eq_none (Nat.le_refl _)
  have hpa : ∀ (addr d : List Nat),
      parseArguments addr d ≠ ParseResult.error OscErr.indexOutOfBounds := by
    intro addr d hx
    unfold parseArguments at hx
    dsimp only at hx
    repeat' split at hx
    all_goals simp at hx
  refine ⟨?_, ?_, ?_⟩
  · refine ⟨?_, ?_, ?_, ?_, ?_⟩ <;>
      simp [readInt32, readFloat32, readBool, readString, readBlob, hn]
  · intro x e s hx
    rcases hx with hx | hx | hx | hx | hx
    · unfold readInt32 at hx
      split at hx
      · cases hx
      · split at hx
        · cases hx
          simp
        · split at hx
          · cases hx
            simp
          · cases hx
    · unfold readFloat32 at hx
      split at hx
      · cases hx
      · split at hx
        · cases hx
          simp
        · split at hx
          · cases hx
            simp
          · cases hx
    · unfold readBool at hx
      split at hx
      · cases hx
      · split at hx
        · cases hx
          simp
        · cases hx
    · unfold readString at hx
      split at hx
      · cases hx
      · split at hx
        · cases hx
          simp
        · split at hx
          cases hx
    · unfold readBlob at hx
      split at hx
      · cases hx
      · split at hx
        · cases hx
          simp
        · split at hx
          · cases hx
            simp
          · dsimp only at hx
            split at hx
            · cases hx
            · split at hx
              · cases hx
                simp
              · cases hx
  · intro d addr
    refine ⟨?_, hpa _ _⟩
    unfold parseMessage
    exact hpa _ _

/-- Witness for C10 at the concrete message `NewMessage [47]` (address
`/`, all zero arguments consumed from the start). -/
theorem consumed_message_read_panics_witness :
    readInt32 (NewMessage [47]) = ReadResult.panic ∧
    readBlob (NewMessage [47]) = ReadResult.panic := by
  have h := consumed_message_read_panics (NewMessage [47]) (by decide)
  exact ⟨h.1.1, h.1.2.2.2.2⟩

end Osc
